import Mathlib

/-!
Verification of the entry-synchronization core (`src/hugo/site.go`) and the
deployment pipeline (`src/aws/deployment.go`) of the strapi2hugo repository,
as a shallow embedding in Lean 4.

The embedding translates the Go source function by function:
pure string/path manipulation becomes Lean functions on `String`;
the filesystem, the entry registry and the fallible external collaborators
(template engine, S3 uploader, `os` calls) become explicit state passed
through the operations, with the outcome of each external call injected
through an environment record so that every control-flow branch of the Go
code is represented.
-/

namespace Strapi2Hugo

/-! ## Go `path` package helpers (slash-separated paths)

`src/hugo/site.go` uses `path.IsAbs`, `path.Join`, `path.Base` and `path.Dir`;
`src/aws/deployment.go` uses `filepath` which on Unix coincides with these.
The definitions below follow the Go standard library implementations.
-/

/-- Splitting a character list on `/` (the effect of
`strings.Split(path, "/")` inside Go's path cleaning). Character lists are
used instead of `String.splitOn` so that every definition reduces inside
proofs. -/
def splitSlash : List Char → List (List Char)
  | [] => [[]]
  | c :: cs =>
    let r := splitSlash cs
    if c = '/' then [] :: r
    else
      match r with
      | [] => [[c]]
      | g :: gs => (c :: g) :: gs

/-- Joining path elements with `/`. -/
def joinSlash : List (List Char) → List Char
  | [] => []
  | [g] => g
  | g :: g2 :: gs => g ++ '/' :: joinSlash (g2 :: gs)

/-- Whether a path starts with a slash. -/
def rootedC : List Char → Bool
  | '/' :: _ => true
  | _ => false

/-- Go `path.IsAbs`: a path is absolute when it starts with a slash. -/
def pathIsAbs (p : String) : Bool := rootedC p.data

/-- One step of Go `path.Clean`'s element processing: drop empty and `.`
elements, let `..` cancel the previous element (kept literally at the front
of a relative path, dropped at the root of an absolute one).
The accumulator holds the processed elements in reverse order. -/
def cleanStepC (rooted : Bool) (acc : List (List Char)) (e : List Char) : List (List Char) :=
  if e = [] ∨ e = ['.'] then acc
  else if e = ['.', '.'] then
    match acc with
    | [] => if rooted then [] else [['.', '.']]
    | a :: rest => if a = ['.', '.'] then e :: a :: rest else rest
  else e :: acc

/-- Go `path.Clean` on a character list. -/
def pathCleanC (cs : List Char) : List Char :=
  if cs = [] then ['.']
  else
    let rooted := rootedC cs
    let elems := ((splitSlash cs).foldl (cleanStepC rooted) []).reverse
    let body := joinSlash elems
    if rooted then (if body = [] then ['/'] else '/' :: body)
    else (if body = [] then ['.'] else body)

/-- Go `path.Clean`. -/
def pathClean (p : String) : String := String.mk (pathCleanC p.data)

/-- Go `path.Join` for two elements: empty elements are discarded, the rest
are joined with a slash and cleaned. -/
def pathJoin (a b : String) : String :=
  if a.data ≠ [] then String.mk (pathCleanC (a.data ++ '/' :: b.data))
  else if b.data ≠ [] then String.mk (pathCleanC b.data)
  else ""

/-- Go `path.Base` on a character list: the last element after dropping
trailing slashes, `/` for a path of only slashes. -/
def pathBaseC (cs : List Char) : List Char :=
  match cs.reverse.dropWhile (fun c => c == '/') with
  | [] => ['/']
  | t => (t.takeWhile (fun c => !(c == '/'))).reverse

/-- Go `path.Base`: the last element of the path, after dropping trailing
slashes; `"."` for the empty path, `"/"` for a path of only slashes. -/
def pathBase (p : String) : String :=
  if p.data = [] then "." else String.mk (pathBaseC p.data)

/-- Go `path.Dir`: everything up to and including the final slash, cleaned. -/
def pathDir (p : String) : String :=
  String.mk (pathCleanC ((p.data.reverse.dropWhile (fun c => !(c == '/'))).reverse))

/-- Scanning loop of Go `filepath.Ext` over the reversed character list:
walk backwards from the end of the name, stop at a path separator,
return from the last dot on. -/
def extLoop : List Char → List Char → String
  | [], _ => ""
  | c :: rest, acc =>
    if c = '/' then ""
    else if c = '.' then String.mk ('.' :: acc)
    else extLoop rest (c :: acc)

/-- Go `filepath.Ext` (Unix separators): the suffix of the final path element
starting at its final dot, or the empty string when there is no dot. -/
def filepathExt (p : String) : String := extLoop p.data.reverse []

/-- Helper for Go `filepath.Rel`: given the cleaned path elements of base and
target, drop the common prefix and replace each remaining base element with
`..`; fails (as Go does) when the remaining base part contains `..`. -/
def relDotsC : List (List Char) → List (List Char) → Option (List (List Char))
  | [], ts => some ts
  | b :: bs, [] =>
    if (b :: bs).contains ['.', '.'] then none
    else some ((b :: bs).map (fun _ => ['.', '.']))
  | b :: bs, t :: ts =>
    if b = t then relDotsC bs ts
    else if (b :: bs).contains ['.', '.'] then none
    else some ((b :: bs).map (fun _ => ['.', '.']) ++ (t :: ts))

/-- Go `filepath.Rel` (Unix separators): the path to `targ` relative to
`basep`, or `none` when it cannot be computed (mixed absolute/relative
arguments, or a base escaping through `..`). -/
def filepathRel (basep targ : String) : Option String :=
  let base := pathCleanC basep.data
  let t := pathCleanC targ.data
  if t = base then some "."
  else if rootedC base != rootedC t then none
  else
    let bs := (splitSlash base).filter (fun e => !(e == []) && !(e == ['.']))
    let ts := (splitSlash t).filter (fun e => !(e == []) && !(e == ['.']))
    (relDotsC bs ts).map (fun es => if es = [] then "." else String.mk (joinSlash es))

/-! ## Errors and results

`midas.Errorf(kind, ...)` errors carry a midas error code (`ErrSiteConfig`,
`ErrInvalid`, `ErrInternal`); the spec (§7) calls `ErrSiteConfig` "ConfigError"
and `ErrInvalid` (used for output filename collisions) "ConflictError".
Errors from external collaborators (os, registry, template engine) are passed
through unchanged and modelled as `externalErr`.
A Go function returning `(string, error)` is modelled by `GoResult.ret`;
a Go runtime panic (nil-pointer dereference, goroutine panic) by
`GoResult.panicked`. -/

inductive ErrKind where
  | siteConfig
  | invalid
  | internal
deriving DecidableEq, Repr

inductive GoError where
  | midasErr (kind : ErrKind) (msg : String)
  | externalErr (msg : String)
deriving DecidableEq, Repr

inductive GoResult where
  | ret (val : String) (err : Option GoError)
  | panicked (msg : String)
deriving DecidableEq, Repr

/-- The message of a Go nil-pointer dereference panic. -/
def nilDerefMsg : String := "runtime error: invalid memory address or nil pointer dereference"

/-! ## Filesystem state

The filesystem visible to `site.go`: an association list of file paths to
contents, a list of existing directories, and a list of paths on which
`os.Stat` fails with an error other than `os.ErrNotExist` (e.g. permission
denied) — needed because `fileExists` in the source distinguishes exactly
that case. `removeAttempts` is a ghost trace recording each `os.Remove`
call, used only to state claims about attempted removals; it has no
counterpart in the program state. -/

structure FS where
  files : List (String × String)
  dirs : List String
  statErrs : List String
  removeAttempts : List String
deriving DecidableEq, Repr

inductive StatRes where
  | ok
  | errNotExist
  | errOther
deriving DecidableEq, Repr

/-- Go `os.Stat` on the modelled filesystem. -/
def FS.stat (fs : FS) (p : String) : StatRes :=
  if fs.statErrs.contains p then .errOther
  else if (fs.files.lookup p).isSome || fs.dirs.contains p then .ok
  else .errNotExist

/-- Function `fileExists` from `src/hugo/site.go`:
`_, err := os.Stat(filename); return !errors.Is(err, os.ErrNotExist)` —
true when stat succeeds, and also when stat fails for any reason other
than not-exist. -/
def fileExists (fs : FS) (p : String) : Bool :=
  fs.stat p != .errNotExist

/-- Create or truncate-and-write a file (`os.Create` + `tmpl.Execute`). -/
def FS.writeFile (fs : FS) (p content : String) : FS :=
  { fs with files := (p, content) :: fs.files.filter (fun q => q.1 != p) }

/-- Go `os.Remove` of a file; also records the attempt in the ghost trace. -/
def FS.removeFile (fs : FS) (p : String) : FS :=
  { fs with files := fs.files.filter (fun q => q.1 != p),
            removeAttempts := p :: fs.removeAttempts }

/-- Go `os.Mkdir`: fails (`none`) when the path already exists as a file or
directory, otherwise adds the directory. -/
def FS.mkdir (fs : FS) (p : String) : Option FS :=
  if (fs.files.lookup p).isSome || fs.dirs.contains p then none
  else some { fs with dirs := p :: fs.dirs }

/-! ## Site configuration, payloads and the registry -/

/-- Structure `midas.Model`: archetype (template) path and output directory. -/
structure Model where
  archetypePath : String
  outputDir : String
deriving DecidableEq, Repr

/-- The slice of `midas.Site` used by `site.go`: root directory and the two
named model groups. -/
structure Site where
  rootDir : String
  collectionTypes : List (String × Model)
  singleTypes : List (String × Model)
deriving DecidableEq, Repr

/-- The slice of `midas.Payload` used by `site.go`:
`payload.Metadata()["model"].(string)`, `payload.Entry()["Title"]`
(stringified with `%v`) and `payload.Entry()["id"].(int)`. -/
structure Payload where
  metaModel : String
  entryTitle : String
  entryIdNum : Int
deriving DecidableEq, Repr

/-- Function `getModel` from `src/hugo/site.go`: look the model name up in the
collection types first, then the single types; `(nil, true)` when absent. -/
def getModel (s : Site) (model : String) : Option Model × Bool :=
  match s.collectionTypes.lookup model with
  | some m => (some m, false)
  | none =>
    match s.singleTypes.lookup model with
    | some m => (some m, true)
    | none => (none, true)

/-- Function `EntryId` from `src/hugo/site.go`:
`fmt.Sprintf("%s-%d", metadata["model"], entry["id"])`. -/
def EntryId (p : Payload) : String :=
  p.metaModel ++ "-" ++ toString p.entryIdNum

/-- Modelled from the spec: `midas.CreateSlug` lives in the external midas
package, outside `src/`. The spec says only "Slug: normalized, URL-safe
string derived from a title, used as filename stem" and "Slug is a pure
deterministic function of title"; modelled as lowercasing with spaces
replaced by hyphens. No claim depends on the exact normalization. -/
def CreateSlug (title : String) : String :=
  String.mk (title.toList.map (fun c => if c = ' ' then '-' else c.toLower))

/-- The entry registry (external collaborator, spec §4.3): a durable map
from entryId to output file path. -/
structure Registry where
  entries : List (String × String)
deriving DecidableEq, Repr

/-- Modelled from the spec: `readEntry(id) → path` of the external registry
contract. The source ignores the returned error
(`oldPath, _ := s.registry.ReadEntry(entryId)`) and per spec §9 an absent
entry yields an empty old path. -/
def Registry.readEntry (r : Registry) (id : String) : String :=
  (r.entries.lookup id).getD ""

/-- Operations `createEntry(id, path)` / `updateEntry(id, path)` of the external
registry contract: set the binding for `id`. -/
def Registry.setEntry (r : Registry) (id p : String) : Registry :=
  { entries := (id, p) :: r.entries.filter (fun q => q.1 != id) }

/-- Outcomes of the fallible external calls made during one
`CreateEntry`/`UpdateEntry` run, injected so that every error branch of the
Go code is reachable in the model: `template.ParseFiles`, `os.Create`,
`tmpl.Execute`, `registry.CreateEntry`, `registry.UpdateEntry`,
`registry.Flush`. `none` means the call succeeds. -/
structure Env where
  parseErr : Option String
  createFileErr : Option String
  execErr : Option String
  regCreateErr : Option String
  regUpdateErr : Option String
  regFlushErr : Option String
deriving DecidableEq, Repr

/-- The environment in which every external call succeeds. -/
def Env.clean : Env := ⟨none, none, none, none, none, none⟩

/-- The external `html/template` engine (`ParseFiles` + `Execute`), modelled
as a deterministic function of the archetype file content and the payload;
no claim depends on the rendered bytes themselves. -/
def renderTemplate (archetype : String) (p : Payload) : String :=
  archetype ++ "|" ++ p.entryTitle

/-- Absolute-path resolution used for both the archetype path and the output
directory: `if !path.IsAbs(p) { p = path.Join(rootDir, p) }`. -/
def resolvePath (root p : String) : String :=
  if pathIsAbs p then p else pathJoin root p

/-- The output path `CreateEntry` computes for a payload under model `m`:
`path.Join(outputDir, slug + ".html")` with the output directory resolved
against the site root. -/
def createOutputPath (s : Site) (m : Model) (p : Payload) : String :=
  pathJoin (resolvePath s.rootDir m.outputDir) (CreateSlug p.entryTitle ++ ".html")

/-! ## CreateEntry and UpdateEntry (`src/hugo/site.go`) -/

/-- Method `SiteService.CreateEntry`, translated branch by branch from
`src/hugo/site.go` lines 66–136. Note that the source discards `getModel`'s
second return and dereferences the returned `*midas.Model` without a nil
check, so an unknown model name is a nil-pointer dereference panic. -/
def CreateEntry (s : Site) (env : Env) (fs : FS) (reg : Registry) (p : Payload) :
    GoResult × FS × Registry :=
  match (getModel s p.metaModel).1 with
  | none => (.panicked nilDerefMsg, fs, reg)
  | some model =>
    let archetypePath := resolvePath s.rootDir model.archetypePath
    let outputDir := resolvePath s.rootDir model.outputDir
    if !fileExists fs archetypePath then
      (.ret "" (some (.midasErr .siteConfig
        ("archetype for model " ++ p.metaModel ++ " does not exist"))), fs, reg)
    else
      match (if fileExists fs outputDir then some fs else fs.mkdir outputDir) with
      | none => (.ret "" (some (.externalErr "mkdir failed")), fs, reg)
      | some fs1 =>
        let outputPath := createOutputPath s model p
        if fileExists fs1 outputPath then
          (.ret "" (some (.midasErr .invalid
            ("output file " ++ pathBase outputPath ++ " already exists"))), fs1, reg)
        else
          match env.parseErr with
          | some e => (.ret "" (some (.externalErr e)), fs1, reg)
          | none =>
            let tmplContent := (fs1.files.lookup archetypePath).getD ""
            match env.createFileErr with
            | some e => (.ret "" (some (.externalErr e)), fs1, reg)
            | none =>
              let fs2 := fs1.writeFile outputPath ""
              match env.execErr with
              | some e => (.ret "" (some (.externalErr e)), fs2, reg)
              | none =>
                let fs3 := fs2.writeFile outputPath (renderTemplate tmplContent p)
                match env.regCreateErr with
                | some e => (.ret outputPath (some (.externalErr e)), fs3, reg)
                | none =>
                  let reg1 := reg.setEntry (EntryId p) outputPath
                  match env.regFlushErr with
                  | some e => (.ret outputPath (some (.externalErr e)), fs3, reg1)
                  | none => (.ret outputPath none, fs3, reg1)

/-- Method `SiteService.UpdateEntry`, translated branch by branch from
`src/hugo/site.go` lines 138–213: resolve the model (nil-pointer panic when
unknown), check the archetype, read the old path from the registry (error
ignored), recompute the output path from the current title in the old
path's directory, reject the rename when the new name exists and differs
from the old one, best-effort remove the old file, render, and update the
registry. -/
def UpdateEntry (s : Site) (env : Env) (fs : FS) (reg : Registry) (p : Payload) :
    GoResult × FS × Registry :=
  match (getModel s p.metaModel).1 with
  | none => (.panicked nilDerefMsg, fs, reg)
  | some model =>
    let archetypePath := resolvePath s.rootDir model.archetypePath
    if !fileExists fs archetypePath then
      (.ret "" (some (.midasErr .siteConfig
        ("archetype for model " ++ p.metaModel ++ " does not exist"))), fs, reg)
    else
      let oldPath := reg.readEntry (EntryId p)
      let outputDir := pathDir oldPath
      match (if fileExists fs outputDir then some fs else fs.mkdir outputDir) with
      | none => (.ret "" (some (.externalErr "mkdir failed")), fs, reg)
      | some fs1 =>
        let outputPath := pathJoin outputDir (CreateSlug p.entryTitle ++ ".html")
        if fileExists fs1 outputPath && pathBase outputPath != pathBase oldPath then
          (.ret "" (some (.midasErr .invalid
            ("output file " ++ pathBase outputPath ++ " already exists"))), fs1, reg)
        else
          let fs2 := if fileExists fs1 oldPath then fs1.removeFile oldPath else fs1
          match env.parseErr with
          | some e => (.ret "" (some (.externalErr e)), fs2, reg)
          | none =>
            let tmplContent := (fs2.files.lookup archetypePath).getD ""
            match env.createFileErr with
            | some e => (.ret "" (some (.externalErr e)), fs2, reg)
            | none =>
              let fs3 := fs2.writeFile outputPath ""
              match env.execErr with
              | some e => (.ret "" (some (.externalErr e)), fs3, reg)
              | none =>
                let fs4 := fs3.writeFile outputPath (renderTemplate tmplContent p)
                match env.regUpdateErr with
                | some e => (.ret outputPath (some (.externalErr e)), fs4, reg)
                | none =>
                  let reg1 := reg.setEntry (EntryId p) outputPath
                  match env.regFlushErr with
                  | some e => (.ret outputPath (some (.externalErr e)), fs4, reg1)
                  | none => (.ret outputPath none, fs4, reg1)

/-! ## Deployment pipeline (`src/aws/deployment.go`) -/

/-- Structure `midas.DeploymentSettings.AWS` as used by `deployment.go`:
bucket, region, static credentials and the optional key `S3Prefix`
(field named `s3Pfx` here; `S3Prefix` in the source). -/
structure DeploymentSettings where
  bucketName : String
  region : String
  accessKey : String
  secretKey : String
  s3Pfx : String
deriving DecidableEq, Repr

/-- Build-output directory resolution from `New` in `deployment.go`:
the configured build path (absolute, or joined to the site root), defaulting
to `<root>/public`. -/
def computePublicPath (rootDir buildOut : String) : String :=
  if buildOut != "" then
    (if pathIsAbs buildOut then buildOut else pathJoin rootDir buildOut)
  else pathJoin rootDir "public"

/-- Go `strings.ReplaceAll(key, "\\", "/")`: with a one-character pattern this
is a character-by-character replacement. -/
def normalizeSeps (s : String) : String :=
  String.mk (s.toList.map (fun c => if c = '\\' then '/' else c))

/-- Storage-key derivation from `uploadFile`:
`fileKey := rel; if prefix != "" { fileKey = prefix + "/" + rel }` followed
by backslash normalization. -/
def uploadFileKey (pfx rel : String) : String :=
  normalizeSeps (if pfx != "" then pfx ++ "/" ++ rel else rel)

/-- The static extension→content-type table from `getFileContentType`. -/
def typeByExtension : List (String × String) :=
  [(".html", "text/html"), (".css", "text/css"), (".xml", "text/xml"),
   (".js", "application/javascript"), (".pdf", "application/pdf"),
   (".png", "image/png"), (".jpg", "image/jpeg"), (".jpeg", "image/jpeg"),
   (".gif", "image/gif"), (".svg", "image/svg+xml"), (".webp", "image/webp"),
   (".webm", "video/webm"), (".mp4", "video/mp4"), (".ogv", "video/ogg"),
   (".avi", "video/x-msvideo"),
   (".ogg", "audio/ogg"), (".mp3", "audio/mpeg"), (".mpeg", "audio/mpeg")]

/-- Function `getFileContentType` from `deployment.go`: table lookup on the file
extension, defaulting to `application/octet-stream`. -/
def getFileContentType (fileName : String) : String :=
  match typeByExtension.lookup (filepathExt fileName) with
  | some contentType => contentType
  | none => "application/octet-stream"

/-- One entry reported by `filepath.Walk` to `fileWalk.Walk`: the path, the
directory flag of its `FileInfo`, and the traversal error reported for it
(`none` when the entry was read without error). -/
structure WalkEvent where
  path : String
  isDir : Bool
  errMsg : Option String
deriving DecidableEq, Repr

/-- Go `filepath.Walk` driving `fileWalk.Walk` (`deployment.go` lines 25–34):
the first entry with a traversal error aborts the whole walk and the error
is returned from `filepath.Walk`; directory entries are skipped; file paths
are sent to the channel in order. Returns the yielded paths and the error
`filepath.Walk` returned, if any. -/
def runWalk : List WalkEvent → List String × Option String
  | [] => ([], none)
  | e :: es =>
    match e.errMsg with
    | some m => ([], some m)
    | none =>
      if e.isDir then runWalk es
      else
        let r := runWalk es
        (e.path :: r.1, r.2)

/-- The deployment context: settings, the resolved public path, and the
outcomes of the external calls (`config.LoadDefaultConfig`, `os.Open` per
path, `uploader.Upload` per path; `none` means success). -/
structure DepCtx where
  settings : DeploymentSettings
  publicPath : String
  cfgErr : Option String
  openErr : String → Option String
  uploadErr : String → Option String

/-- Function `uploadFile` from `deployment.go`: derives the storage key and content
type (`file.Name()` is the path the file was opened with) and performs the
upload; returns the (key, contentType) record of the S3 request and the
upload outcome. -/
def uploadFile (d : DepCtx) (pathArg rel : String) : (String × String) × Option String :=
  ((uploadFileKey d.settings.s3Pfx rel, getFileContentType pathArg), d.uploadErr pathArg)

/-- The (key, contentType) record `uploadFile` produces for a walked path. -/
def recordOf (d : DepCtx) (p : String) : String × String :=
  (uploadFileKey d.settings.s3Pfx ((filepathRel d.publicPath p).getD ""), getFileContentType p)

/-- The upload loop of `Deploy` (`deployment.go` lines 82–107), consuming
the walked paths strictly sequentially: for each path compute the relative
path (failure aborts the deployment), open the file (failure aborts), and
upload (failure aborts). Returns the paths for which an upload was
attempted, the (key, contentType) records of the successful uploads in
order, and the first error, if any. -/
def uploadLoop (d : DepCtx) : List String → List String × List (String × String) × Option String
  | [] => ([], [], none)
  | p :: ps =>
    match filepathRel d.publicPath p with
    | none => ([], [], some ("Rel: cannot make " ++ p ++ " relative to " ++ d.publicPath))
    | some rel =>
      match d.openErr p with
      | some e => ([], [], some e)
      | none =>
        let u := uploadFile d p rel
        match u.2 with
        | some e => ([p], [], some e)
        | none =>
          let r := uploadLoop d ps
          (p :: r.1, u.1 :: r.2.1, r.2.2)

inductive DeployOutcome where
  | ok
  | err (msg : String)
  | panicked (msg : String)
deriving DecidableEq, Repr

/-- Method `Deploy` from `deployment.go`, with the concurrent producer/consumer
serialized: `retrieveFiles` starts the walker goroutine (and itself never
fails), the unbuffered channel forces every yielded path to be consumed
before the walker advances, and the consumer uploads strictly sequentially.
When `filepath.Walk` returns an error the goroutine executes `panic(err)`
— an unrecoverable process crash, modelled as `DeployOutcome.panicked`
after the yielded paths have been consumed. When an upload fails first,
`Deploy` returns that error. Returns the outcome, the paths for which an
upload was attempted, and the (key, contentType) records of the successful
uploads. -/
def Deploy (d : DepCtx) (events : List WalkEvent) :
    DeployOutcome × List String × List (String × String) :=
  match d.cfgErr with
  | some e => (.err e, [], [])
  | none =>
    let w := runWalk events
    let r := uploadLoop d w.1
    match r.2.2 with
    | some e => (.err e, r.1, r.2.1)
    | none =>
      match w.2 with
      | some e => (.panicked e, r.1, r.2.1)
      | none => (.ok, r.1, r.2.1)

/-! ## Concrete scenarios used by witnesses and counterexamples -/

/-- The `post` model of the concrete site. -/
def modelPost : Model := { archetypePath := "archetypes/post.html", outputDir := "content" }

/-- A site with one collection-type model `post`. -/
def siteA : Site :=
  { rootDir := "/site",
    collectionTypes := [("post", modelPost)],
    singleTypes := [] }

/-- A filesystem holding the `post` archetype and the output directory. -/
def fsA : FS :=
  { files := [("/site/archetypes/post.html", "TPL")],
    dirs := ["/site", "/site/content"],
    statErrs := [],
    removeAttempts := [] }

def regA : Registry := { entries := [] }

def payloadA : Payload := { metaModel := "post", entryTitle := "Hello World", entryIdNum := 5 }

def payloadB : Payload := { metaModel := "post", entryTitle := "New Title", entryIdNum := 5 }

def payloadMissing : Payload := { metaModel := "missing", entryTitle := "X", entryIdNum := 1 }

/-- State `fsA` after the entry of `payloadA` was created and registered. -/
def fsB : FS :=
  { files := [("/site/archetypes/post.html", "TPL"), ("/site/content/hello-world.html", "OLD")],
    dirs := ["/site", "/site/content"],
    statErrs := [],
    removeAttempts := [] }

def regB : Registry := { entries := [("post-5", "/site/content/hello-world.html")] }

/-- State `fsB` with the target name of a rename already occupied by another file. -/
def fsC : FS :=
  { files := [("/site/archetypes/post.html", "TPL"),
              ("/site/content/hello-world.html", "OLD"),
              ("/site/content/new-title.html", "OTHER")],
    dirs := ["/site", "/site/content"],
    statErrs := [],
    removeAttempts := [] }

/-- A filesystem where `os.Stat` fails with a permission error on
`/site/content/hello-world.html`, which is not actually present. -/
def fsS : FS :=
  { files := [("/site/archetypes/post.html", "TPL")],
    dirs := ["/site", "/site/content"],
    statErrs := ["/site/content/hello-world.html"],
    removeAttempts := [] }

def setA : DeploymentSettings :=
  { bucketName := "b", region := "r", accessKey := "a", secretKey := "s", s3Pfx := "assets" }

/-- A deployment context with key `assets` and all external calls succeeding. -/
def ctxA : DepCtx :=
  { settings := setA, publicPath := "/site/public", cfgErr := none,
    openErr := fun _ => none, uploadErr := fun _ => none }

/-- A deployment context without a key prefix. -/
def ctxB : DepCtx :=
  { settings := { setA with s3Pfx := "" }, publicPath := "/site/public", cfgErr := none,
    openErr := fun _ => none, uploadErr := fun _ => none }

/-- A deployment context where the upload of `/site/public/b.css` fails. -/
def ctx9 : DepCtx :=
  { settings := setA, publicPath := "/site/public", cfgErr := none,
    openErr := fun _ => none,
    uploadErr := fun p => if p = "/site/public/b.css" then some "boom" else none }

/-! ## Helper lemmas -/

theorem lookup_filter_ne {l : List (String × String)} {a b : String} (h : a ≠ b) :
    (l.filter (fun q => q.1 != b)).lookup a = l.lookup a := by
  induction l with
  | nil => rfl
  | cons hd tl ih =>
    obtain ⟨k, v⟩ := hd
    by_cases hkb : k = b
    · have hak : (a == k) = false := by simp [hkb, h]
      simp only [List.filter_cons]
      have hf : ((k, v).1 != b) = false := by simp [hkb]
      rw [hf]
      simp only [Bool.false_eq_true, if_false, List.lookup, hak, ih]
    · have hf : ((k, v).1 != b) = true := by simp [hkb]
      simp only [List.filter_cons, hf, if_true, List.lookup]
      cases hak : a == k
      · simp only [ih]
      · rfl

theorem FS.lookup_writeFile_self (fs : FS) (p c : String) :
    ((fs.writeFile p c).files).lookup p = some c := by
  simp [FS.writeFile, List.lookup]

theorem FS.lookup_writeFile_ne (fs : FS) {p q : String} (c : String) (h : q ≠ p) :
    ((fs.writeFile p c).files).lookup q = fs.files.lookup q := by
  have hb : (q == p) = false := by simp [h]
  simp [FS.writeFile, List.lookup, hb, lookup_filter_ne h]

theorem FS.lookup_removeFile_ne (fs : FS) {p q : String} (h : q ≠ p) :
    ((fs.removeFile p).files).lookup q = fs.files.lookup q := by
  simp [FS.removeFile, lookup_filter_ne h]

theorem lookupNoneOfKeysAbsent {β : Type} {l : List (String × β)} {a : String}
    (h : ∀ x ∈ l, a ≠ x.1) : l.lookup a = none := by
  induction l with
  | nil => rfl
  | cons hd tl ih =>
    have h1 : (a == hd.1) = false := by simp [h hd (List.mem_cons_self hd tl)]
    simp only [List.lookup, h1]
    exact ih (fun x hx => h x (List.mem_cons_of_mem hd hx))

theorem normalizeSeps_append (a b : String) :
    normalizeSeps (a ++ b) = normalizeSeps a ++ normalizeSeps b := by
  cases a with
  | mk la =>
    cases b with
    | mk lb =>
      show String.mk ((la ++ lb).map _) = String.mk (la.map _ ++ lb.map _)
      rw [List.map_append]

theorem map_sep_all_no_backslash (l : List Char) :
    ((l.map (fun c => if c = '\\' then '/' else c)).all (fun c => !(c == '\\'))) = true := by
  induction l with
  | nil => rfl
  | cons c cs ih =>
    simp only [List.map_cons, List.all_cons, ih, Bool.and_true]
    by_cases hc : c = '\\' <;> simp [hc]

theorem normalizeSeps_no_backslash (s : String) :
    ((normalizeSeps s).data.all (fun c => !(c == '\\'))) = true :=
  map_sep_all_no_backslash s.data

theorem uploadLoop_prefix_fail (d : DepCtx) (rest : List String) (pN e : String) :
    ∀ pre : List String,
    (∀ q ∈ pre, (filepathRel d.publicPath q).isSome = true) →
    (∀ q ∈ pre, d.openErr q = none) →
    (∀ q ∈ pre, d.uploadErr q = none) →
    (filepathRel d.publicPath pN).isSome = true →
    d.openErr pN = none →
    d.uploadErr pN = some e →
    uploadLoop d (pre ++ pN :: rest) = (pre ++ [pN], pre.map (recordOf d), some e) := by
  intro pre
  induction pre with
  | nil =>
    intro _ _ _ hrelN hopenN hfail
    obtain ⟨relN, hrelN2⟩ := Option.isSome_iff_exists.mp hrelN
    simp [uploadLoop, hrelN2, hopenN, uploadFile, hfail]
  | cons q qs ih =>
    intro hrel hopen hok hrelN hopenN hfail
    obtain ⟨relq, hq⟩ := Option.isSome_iff_exists.mp (hrel q (List.mem_cons_self q qs))
    have hrec := ih (fun x hx => hrel x (List.mem_cons_of_mem q hx))
      (fun x hx => hopen x (List.mem_cons_of_mem q hx))
      (fun x hx => hok x (List.mem_cons_of_mem q hx)) hrelN hopenN hfail
    simp [uploadLoop, hq, hopen q (List.mem_cons_self q qs), uploadFile,
      hok q (List.mem_cons_self q qs), hrec, recordOf]

/-! ## Claims -/

/-- C1: the claim says that for a payload whose model name is in neither the
collection types nor the single types, `CreateEntry` and `UpdateEntry`
return a ConfigError identifying the unknown model. The code does not:
`getModel` returns `(nil, true)` and both functions dereference the nil
`*midas.Model` (`model.ArchetypePath`) without a check, so both calls end
in a nil-pointer-dereference runtime panic instead of any returned error.
This theorem proves what the code actually does on every such payload. -/
theorem c1_unknown_model_panics (s : Site) (env : Env) (fs : FS) (reg : Registry) (p : Payload)
    (hc : s.collectionTypes.lookup p.metaModel = none)
    (hs : s.singleTypes.lookup p.metaModel = none) :
    CreateEntry s env fs reg p = (.panicked nilDerefMsg, fs, reg) ∧
    UpdateEntry s env fs reg p = (.panicked nilDerefMsg, fs, reg) := by
  constructor <;> simp [CreateEntry, UpdateEntry, getModel, hc, hs]

/-- C1 witness: the unknown model `missing` at concrete inputs. -/
theorem c1_unknown_model_panics_witness :
    CreateEntry siteA Env.clean fsA regA payloadMissing = (.panicked nilDerefMsg, fsA, regA) ∧
    UpdateEntry siteA Env.clean fsA regA payloadMissing = (.panicked nilDerefMsg, fsA, regA) :=
  c1_unknown_model_panics siteA Env.clean fsA regA payloadMissing (by decide) (by decide)

/-- C2: the claim says a traversal error aborts the walk and is propagated
to the caller of `Deploy` as an ordinary returned failure, not a process
crash. The code does abort the walk (`fileWalk.Walk` returns the error, so
`filepath.Walk` stops), but `retrieveFiles` then executes `panic(err)` in
the walker goroutine — an unrecoverable process crash that `Deploy`'s
caller never sees as a returned error. At a concrete walk whose second
entry reports "permission denied", the deployment ends in the panic, and
no `DeployOutcome.err` (ordinary returned failure) is produced. -/
theorem c2_walk_error_crashes :
    Deploy ctxA [⟨"/site/public/index.html", false, none⟩,
                 ⟨"/site/public/secret", false, some "permission denied"⟩] =
      (.panicked "permission denied", ["/site/public/index.html"],
       [("assets/index.html", "text/html")]) ∧
    ∀ m ps ups,
      Deploy ctxA [⟨"/site/public/index.html", false, none⟩,
                   ⟨"/site/public/secret", false, some "permission denied"⟩] ≠
        (.err m, ps, ups) := by
  have h : Deploy ctxA [⟨"/site/public/index.html", false, none⟩,
      ⟨"/site/public/secret", false, some "permission denied"⟩] =
      (.panicked "permission denied", ["/site/public/index.html"],
       [("assets/index.html", "text/html")]) := by decide
  refine ⟨h, ?_⟩
  intro m ps ups hcontra
  rw [h] at hcontra
  exact DeployOutcome.noConfusion (congrArg Prod.fst hcontra)

/-- C3: when rendering and writing the output file succeeded and only the
registry `createEntry` or the subsequent `flush` fails, `CreateEntry`
returns the computed `outputPath` together with the error, and the written
file is still present on disk with its rendered content (no rollback). -/
theorem c3_registry_failure_returns_path
    (s : Site) (env : Env) (fs : FS) (reg : Registry) (p : Payload) (m : Model) (e : String)
    (hm : (getModel s p.metaModel).1 = some m)
    (ha : fileExists fs (resolvePath s.rootDir m.archetypePath) = true)
    (hd : fileExists fs (resolvePath s.rootDir m.outputDir) = true)
    (hfree : fileExists fs (createOutputPath s m p) = false)
    (hparse : env.parseErr = none) (hcf : env.createFileErr = none) (hexec : env.execErr = none)
    (hreg : env.regCreateErr = some e ∨ (env.regCreateErr = none ∧ env.regFlushErr = some e)) :
    ∃ fs3 reg1,
      CreateEntry s env fs reg p =
        (.ret (createOutputPath s m p) (some (.externalErr e)), fs3, reg1) ∧
      fs3.files.lookup (createOutputPath s m p) =
        some (renderTemplate
          ((fs.files.lookup (resolvePath s.rootDir m.archetypePath)).getD "") p) := by
  rcases hreg with hrc | ⟨hrc, hrf⟩
  · refine ⟨(fs.writeFile (createOutputPath s m p) "").writeFile (createOutputPath s m p)
      (renderTemplate ((fs.files.lookup (resolvePath s.rootDir m.archetypePath)).getD "") p),
      reg, ?_, FS.lookup_writeFile_self _ _ _⟩
    simp only [CreateEntry, hm, ha, hd, hfree, hparse, hcf, hexec, hrc, Bool.not_true,
      Bool.not_false, if_true, if_false, Bool.false_eq_true, Bool.true_eq_false]
  · refine ⟨(fs.writeFile (createOutputPath s m p) "").writeFile (createOutputPath s m p)
      (renderTemplate ((fs.files.lookup (resolvePath s.rootDir m.archetypePath)).getD "") p),
      reg.setEntry (EntryId p) (createOutputPath s m p), ?_, FS.lookup_writeFile_self _ _ _⟩
    simp only [CreateEntry, hm, ha, hd, hfree, hparse, hcf, hexec, hrc, hrf, Bool.not_true,
      Bool.not_false, if_true, if_false, Bool.false_eq_true, Bool.true_eq_false]

/-- C3 witness: registry `CreateEntry` fails at a concrete input; the file
is written and the path is returned with the error. -/
theorem c3_registry_failure_returns_path_witness :
    ∃ fs3 reg1,
      CreateEntry siteA { Env.clean with regCreateErr := some "registry down" } fsA regA payloadA =
        (.ret (createOutputPath siteA modelPost payloadA)
          (some (.externalErr "registry down")), fs3, reg1) ∧
      fs3.files.lookup (createOutputPath siteA modelPost payloadA) =
        some (renderTemplate
          ((fsA.files.lookup (resolvePath siteA.rootDir "archetypes/post.html")).getD "") payloadA) :=
  c3_registry_failure_returns_path siteA _ fsA regA payloadA modelPost "registry down"
    (by decide) (by decide) (by decide) (by decide) rfl rfl rfl (Or.inl rfl)

/-- C5: when the computed output path already exists on disk, `CreateEntry`
fails with the collision error (`midas.ErrInvalid`, the spec's
ConflictError) and changes neither the filesystem nor the registry; in
particular, creating the same entry (same model and title) twice fails the
second time and leaves the first file's content untouched. -/
theorem c5_create_conflict
    (s : Site) (env : Env) (fs : FS) (reg : Registry) (p : Payload) (m : Model)
    (hm : (getModel s p.metaModel).1 = some m)
    (ha : fileExists fs (resolvePath s.rootDir m.archetypePath) = true)
    (hd : fileExists fs (resolvePath s.rootDir m.outputDir) = true)
    (hex : fileExists fs (createOutputPath s m p) = true) :
    CreateEntry s env fs reg p =
      (.ret "" (some (.midasErr .invalid
        ("output file " ++ pathBase (createOutputPath s m p) ++ " already exists"))), fs, reg) ∧
    (CreateEntry siteA Env.clean fsA regA payloadA).1 =
      .ret "/site/content/hello-world.html" none ∧
    (let r1 := CreateEntry siteA Env.clean fsA regA payloadA
     CreateEntry siteA Env.clean r1.2.1 r1.2.2 payloadA =
       (.ret "" (some (.midasErr .invalid "output file hello-world.html already exists")),
        r1.2.1, r1.2.2)) := by
  refine ⟨?_, by decide, by decide⟩
  simp only [CreateEntry, hm, ha, hd, hex, Bool.not_true, Bool.not_false, if_true, if_false,
    Bool.false_eq_true, Bool.true_eq_false]

/-- C5 witness: the conflict at a concrete input (an entry whose output file
already exists). -/
theorem c5_create_conflict_witness :
    CreateEntry siteA Env.clean fsB regB payloadA =
      (.ret "" (some (.midasErr .invalid
        ("output file " ++ pathBase (createOutputPath siteA modelPost payloadA) ++
         " already exists"))), fsB, regB) :=
  (c5_create_conflict siteA Env.clean fsB regB payloadA modelPost
    (by decide) (by decide) (by decide) (by decide)).1

/-- C4: `UpdateEntry`'s rename policy. (a) When the recomputed output path
exists on disk and its filename differs from the registered old path's
filename, the call fails with the collision error (`midas.ErrInvalid`, the
spec's ConflictError) and changes nothing. (b) When the recomputed filename
equals the old path's filename (for a registry-stored path that is clean,
i.e. `dir(old) + base(old) = old`), the update proceeds: the old file is
removed and re-written in place with the newly rendered content, and the
registry is updated — the same file is overwritten. -/
theorem c4_update_rename_policy
    (s : Site) (env : Env) (fs : FS) (reg : Registry) (p : Payload) (m : Model) (oldPath : String) :
    ((getModel s p.metaModel).1 = some m →
     fileExists fs (resolvePath s.rootDir m.archetypePath) = true →
     reg.entries.lookup (EntryId p) = some oldPath →
     fileExists fs (pathDir oldPath) = true →
     fileExists fs (pathJoin (pathDir oldPath) (CreateSlug p.entryTitle ++ ".html")) = true →
     pathBase (pathJoin (pathDir oldPath) (CreateSlug p.entryTitle ++ ".html")) ≠ pathBase oldPath →
     UpdateEntry s env fs reg p =
       (.ret "" (some (.midasErr .invalid
         ("output file " ++
          pathBase (pathJoin (pathDir oldPath) (CreateSlug p.entryTitle ++ ".html")) ++
          " already exists"))), fs, reg)) ∧
    (env = Env.clean →
     (getModel s p.metaModel).1 = some m →
     fileExists fs (resolvePath s.rootDir m.archetypePath) = true →
     reg.entries.lookup (EntryId p) = some oldPath →
     fileExists fs (pathDir oldPath) = true →
     CreateSlug p.entryTitle ++ ".html" = pathBase oldPath →
     pathJoin (pathDir oldPath) (pathBase oldPath) = oldPath →
     fileExists fs oldPath = true →
     resolvePath s.rootDir m.archetypePath ≠ oldPath →
     UpdateEntry s env fs reg p =
       (.ret oldPath none,
        ((fs.removeFile oldPath).writeFile oldPath "").writeFile oldPath
          (renderTemplate
            ((fs.files.lookup (resolvePath s.rootDir m.archetypePath)).getD "") p),
        reg.setEntry (EntryId p) oldPath)) := by
  constructor
  · intro hm ha hreg hd hex hbase
    simp [UpdateEntry, hm, ha, Registry.readEntry, hreg, hd, hex, hbase]
  · intro henv hm ha hreg hd hbaseEq hcanon hex hneq
    subst henv
    have hop : pathJoin (pathDir oldPath) (CreateSlug p.entryTitle ++ ".html") = oldPath := by
      rw [hbaseEq, hcanon]
    simp only [UpdateEntry, hm, ha, Registry.readEntry, hreg, Option.getD_some, hop, hd, hex,
      Env.clean, Bool.not_true, Bool.false_eq_true, if_false, if_true, bne_self_eq_false,
      Bool.and_false, FS.lookup_removeFile_ne _ hneq]

/-- C4 witness: (a) renaming the registered entry onto the occupied name
`new-title.html` is rejected and leaves both files untouched; (b) updating
with an unchanged title overwrites `hello-world.html` in place. -/
theorem c4_update_rename_policy_witness :
    UpdateEntry siteA Env.clean fsC regB payloadB =
      (.ret "" (some (.midasErr .invalid
        ("output file " ++
         pathBase (pathJoin (pathDir "/site/content/hello-world.html")
           (CreateSlug payloadB.entryTitle ++ ".html")) ++
         " already exists"))), fsC, regB) ∧
    UpdateEntry siteA Env.clean fsB regB payloadA =
      (.ret "/site/content/hello-world.html" none,
       ((fsB.removeFile "/site/content/hello-world.html").writeFile
          "/site/content/hello-world.html" "").writeFile "/site/content/hello-world.html"
         (renderTemplate
           ((fsB.files.lookup (resolvePath siteA.rootDir modelPost.archetypePath)).getD "")
           payloadA),
       regB.setEntry (EntryId payloadA) "/site/content/hello-world.html") :=
  ⟨(c4_update_rename_policy siteA Env.clean fsC regB payloadB modelPost
      "/site/content/hello-world.html").1
      (by decide) (by decide) (by decide) (by decide) (by decide) (by decide),
   (c4_update_rename_policy siteA Env.clean fsB regB payloadA modelPost
      "/site/content/hello-world.html").2
      rfl (by decide) (by decide) (by decide) (by decide) (by decide) (by decide) (by decide)
      (by decide)⟩

/-- C10: `fileExists` treats any stat failure other than not-exist as "the
path exists". (a) Whenever `os.Stat` fails with a non-not-exist error,
`fileExists` returns true. (b) Hence `CreateEntry` returns the collision
error (ConflictError) for an output path on which stat fails even though no
such file (or directory) is actually present. (c) Hence `UpdateEntry`
attempts `os.Remove` on a registered old path on which stat fails even
though no such file is actually present. -/
theorem c10_stat_error_counts_as_existing
    (s : Site) (env : Env) (fs : FS) (reg : Registry) (p : Payload) (m : Model) (oldPath : String) :
    (∀ (fs2 : FS) (q : String), fs2.stat q = .errOther → fileExists fs2 q = true) ∧
    ((getModel s p.metaModel).1 = some m →
     fileExists fs (resolvePath s.rootDir m.archetypePath) = true →
     fileExists fs (resolvePath s.rootDir m.outputDir) = true →
     fs.stat (createOutputPath s m p) = .errOther →
     fs.files.lookup (createOutputPath s m p) = none →
     fs.dirs.contains (createOutputPath s m p) = false →
     CreateEntry s env fs reg p =
       (.ret "" (some (.midasErr .invalid
         ("output file " ++ pathBase (createOutputPath s m p) ++ " already exists"))),
        fs, reg)) ∧
    (env = Env.clean →
     (getModel s p.metaModel).1 = some m →
     fileExists fs (resolvePath s.rootDir m.archetypePath) = true →
     reg.entries.lookup (EntryId p) = some oldPath →
     fileExists fs (pathDir oldPath) = true →
     fileExists fs (pathJoin (pathDir oldPath) (CreateSlug p.entryTitle ++ ".html")) = false →
     fs.stat oldPath = .errOther →
     fs.files.lookup oldPath = none →
     ∃ r fs4 reg1, UpdateEntry s env fs reg p = (r, fs4, reg1) ∧
       fs4.removeAttempts = oldPath :: fs.removeAttempts) := by
  refine ⟨fun fs2 q h => by simp [fileExists, h], ?_, ?_⟩
  · intro hm ha hd hstat _ _
    have hex : fileExists fs (createOutputPath s m p) = true := by simp [fileExists, hstat]
    simp [CreateEntry, hm, ha, hd, hex]
  · intro henv hm ha hreg hd hfree hstat _
    subst henv
    have hex : fileExists fs oldPath = true := by simp [fileExists, hstat]
    refine ⟨.ret (pathJoin (pathDir oldPath) (CreateSlug p.entryTitle ++ ".html")) none,
      ((fs.removeFile oldPath).writeFile
          (pathJoin (pathDir oldPath) (CreateSlug p.entryTitle ++ ".html")) "").writeFile
        (pathJoin (pathDir oldPath) (CreateSlug p.entryTitle ++ ".html"))
        (renderTemplate
          (((fs.removeFile oldPath).files.lookup
            (resolvePath s.rootDir m.archetypePath)).getD "") p),
      reg.setEntry (EntryId p) (pathJoin (pathDir oldPath) (CreateSlug p.entryTitle ++ ".html")),
      ?_, ?_⟩
    · simp only [UpdateEntry, hm, ha, Registry.readEntry, hreg, Option.getD_some, hd, hfree,
        Env.clean, Bool.not_true, Bool.false_eq_true, if_false, if_true, Bool.false_and, hex]
    · simp [FS.removeFile, FS.writeFile]

/-- C10 witness: with a permission-style stat failure on
`/site/content/hello-world.html` (which is not actually present):
(a) `fileExists` reports it as existing; (b) creating the entry fails with
the collision error; (c) updating the entry to a new title attempts to
remove the absent old file. -/
theorem c10_stat_error_counts_as_existing_witness :
    fileExists fsS "/site/content/hello-world.html" = true ∧
    CreateEntry siteA Env.clean fsS regA payloadA =
      (.ret "" (some (.midasErr .invalid
        ("output file " ++ pathBase (createOutputPath siteA modelPost payloadA) ++
         " already exists"))), fsS, regA) ∧
    (∃ r fs4 reg1, UpdateEntry siteA Env.clean fsS regB payloadB = (r, fs4, reg1) ∧
       fs4.removeAttempts = "/site/content/hello-world.html" :: fsS.removeAttempts) :=
  ⟨(c10_stat_error_counts_as_existing siteA Env.clean fsS regA payloadA modelPost
      "/site/content/hello-world.html").1 fsS "/site/content/hello-world.html" (by decide),
   (c10_stat_error_counts_as_existing siteA Env.clean fsS regA payloadA modelPost
      "/site/content/hello-world.html").2.1
      (by decide) (by decide) (by decide) (by decide) (by decide) (by decide),
   (c10_stat_error_counts_as_existing siteA Env.clean fsS regB payloadB modelPost
      "/site/content/hello-world.html").2.2
      rfl (by decide) (by decide) (by decide) (by decide) (by decide) (by decide) (by decide)⟩

/-- C6: `EntryId` is exactly `"<model>-<id>"` for every payload, and in
particular model `post` with id 5 yields `"post-5"`; as a pure function it
is stable across calls with the same inputs. -/
theorem c6_entry_id (mo t : String) (i : Int) :
    EntryId { metaModel := mo, entryTitle := t, entryIdNum := i } = mo ++ "-" ++ toString i ∧
    EntryId { metaModel := "post", entryTitle := t, entryIdNum := 5 } = "post-5" :=
  ⟨rfl, rfl⟩

/-- C7: the storage key of every uploaded file is the configured prefix,
a slash, and the path relative to the build output root when the prefix is
non-empty, and just the relative path when the prefix is empty — with every
backslash separator normalized to a forward slash (so the final key never
contains a backslash). Concretely: with prefix `assets`, the file
`<root>/img/a.png` uploads under key `assets/img/a.png`; without a prefix,
under `img/a.png`; a Windows-style relative path `img\a.png` yields the
same normalized key. -/
theorem c7_storage_key (pfx rel : String) :
    uploadFileKey pfx rel =
      (if pfx = "" then normalizeSeps rel
       else normalizeSeps pfx ++ "/" ++ normalizeSeps rel) ∧
    ((uploadFileKey pfx rel).data.all (fun c => !(c == '\\'))) = true ∧
    (Deploy ctxA [⟨"/site/public/img/a.png", false, none⟩]).2.2 =
      [("assets/img/a.png", "image/png")] ∧
    (Deploy ctxB [⟨"/site/public/img/a.png", false, none⟩]).2.2 =
      [("img/a.png", "image/png")] ∧
    uploadFileKey "assets" "img\\a.png" = "assets/img/a.png" := by
  refine ⟨?_, normalizeSeps_no_backslash _, by decide, by decide, by decide⟩
  by_cases hp : pfx = ""
  · subst hp
    simp [uploadFileKey]
  · have hb : (pfx != "") = true := by simp [hp]
    simp only [uploadFileKey, hb, if_true, if_neg hp]
    rw [normalizeSeps_append, normalizeSeps_append]
    rfl

/-- C8: for every file name, the derived content type is exactly the one in
the static extension table when the extension is one of the table's 18
entries, and `application/octet-stream` for every extension outside the
table. -/
theorem c8_content_types (name : String) :
    (filepathExt name = ".html" → getFileContentType name = "text/html") ∧
    (filepathExt name = ".css" → getFileContentType name = "text/css") ∧
    (filepathExt name = ".xml" → getFileContentType name = "text/xml") ∧
    (filepathExt name = ".js" → getFileContentType name = "application/javascript") ∧
    (filepathExt name = ".pdf" → getFileContentType name = "application/pdf") ∧
    (filepathExt name = ".png" → getFileContentType name = "image/png") ∧
    (filepathExt name = ".jpg" → getFileContentType name = "image/jpeg") ∧
    (filepathExt name = ".jpeg" → getFileContentType name = "image/jpeg") ∧
    (filepathExt name = ".gif" → getFileContentType name = "image/gif") ∧
    (filepathExt name = ".svg" → getFileContentType name = "image/svg+xml") ∧
    (filepathExt name = ".webp" → getFileContentType name = "image/webp") ∧
    (filepathExt name = ".webm" → getFileContentType name = "video/webm") ∧
    (filepathExt name = ".mp4" → getFileContentType name = "video/mp4") ∧
    (filepathExt name = ".ogv" → getFileContentType name = "video/ogg") ∧
    (filepathExt name = ".avi" → getFileContentType name = "video/x-msvideo") ∧
    (filepathExt name = ".ogg" → getFileContentType name = "audio/ogg") ∧
    (filepathExt name = ".mp3" → getFileContentType name = "audio/mpeg") ∧
    (filepathExt name = ".mpeg" → getFileContentType name = "audio/mpeg") ∧
    (filepathExt name ∉ [".html", ".css", ".xml", ".js", ".pdf", ".png", ".jpg", ".jpeg",
        ".gif", ".svg", ".webp", ".webm", ".mp4", ".ogv", ".avi", ".ogg", ".mp3", ".mpeg"] →
     getFileContentType name = "application/octet-stream") := by
  refine ⟨?_, ?_, ?_, ?_, ?_, ?_, ?_, ?_, ?_, ?_, ?_, ?_, ?_, ?_, ?_, ?_, ?_, ?_, ?_⟩
  any_goals
    intro h
    simp only [getFileContentType]
    rw [h]
    rfl
  intro h
  have hnone : typeByExtension.lookup (filepathExt name) = none := by
    apply lookupNoneOfKeysAbsent
    intro x hx hca
    exact h (by rw [hca]; exact List.mem_map_of_mem Prod.fst hx)
  simp [getFileContentType, hnone]

/-- C8 witness: a name with a table extension and one with an unknown
extension. -/
theorem c8_content_types_witness :
    getFileContentType "index.html" = "text/html" ∧
    getFileContentType "archive.unknown" = "application/octet-stream" :=
  ⟨(c8_content_types "index.html").1 (by decide),
   (c8_content_types
     "archive.unknown").2.2.2.2.2.2.2.2.2.2.2.2.2.2.2.2.2.2 (by decide)⟩

/-- C9: over any finite walked sequence `pre ++ [pN] ++ rest` in which every
upload before `pN` succeeds and the upload of `pN` fails, `Deploy` returns
that error, the attempted uploads are exactly `pre ++ [pN]` (nothing after
`pN` is ever attempted), and the successfully uploaded objects are exactly
those of `pre` — still present, not rolled back. -/
theorem c9_first_upload_failure_aborts (d : DepCtx) (events : List WalkEvent)
    (pre rest : List String) (pN e : String)
    (hcfg : d.cfgErr = none)
    (hw : runWalk events = (pre ++ pN :: rest, none))
    (hrel : ∀ q ∈ pre, (filepathRel d.publicPath q).isSome = true)
    (hopen : ∀ q ∈ pre, d.openErr q = none)
    (hok : ∀ q ∈ pre, d.uploadErr q = none)
    (hrelN : (filepathRel d.publicPath pN).isSome = true)
    (hopenN : d.openErr pN = none)
    (hfail : d.uploadErr pN = some e) :
    Deploy d events = (.err e, pre ++ [pN], pre.map (recordOf d)) := by
  simp only [Deploy, hcfg, hw,
    uploadLoop_prefix_fail d rest pN e pre hrel hopen hok hrelN hopenN hfail]

/-- C9 witness: three walked files with the second upload failing — the
third is never attempted, the first stays uploaded. -/
theorem c9_first_upload_failure_aborts_witness :
    Deploy ctx9 [⟨"/site/public/a.html", false, none⟩, ⟨"/site/public/b.css", false, none⟩,
                 ⟨"/site/public/c.js", false, none⟩] =
      (.err "boom", ["/site/public/a.html", "/site/public/b.css"],
       List.map (recordOf ctx9) ["/site/public/a.html"]) :=
  c9_first_upload_failure_aborts ctx9
    [⟨"/site/public/a.html", false, none⟩, ⟨"/site/public/b.css", false, none⟩,
     ⟨"/site/public/c.js", false, none⟩]
    ["/site/public/a.html"] ["/site/public/c.js"] "/site/public/b.css" "boom"
    rfl (by decide) (by decide) (by decide) (by decide) (by decide) (by decide) (by decide)

end Strapi2Hugo
